import Mathlib

/-!
# Bounded-queue thread pool (`threadpool.c`, `threadpool.h`)

A shallow embedding of the pool state and of the three places that touch it:
`threadpool_add` (producer), `threadpool_thread` (worker loop) and
`threadpool_destroy` / `threadpool_free` / `threadpool_create` (lifecycle).

Conventions of the embedding.

* C `int` values are mathematical integers (`Int`).  Every arithmetic step of the
  program is a `+ 1` / `- 1` on a field; signed overflow is undefined in C and is
  not given a meaning here.
* C `%` truncates towards zero, so it is `Int.tmod`; a zero divisor is undefined
  behaviour.
* A pointer to a function or to an argument is a `Nat`, with `0` for `NULL`.
* The task buffer `pool->queue` is the memory behind the pointer, a map from
  index to task; only the indices `0 .. queue_size - 1` are allocated.
* A pool handle is an `Option threadpool_t`, `none` for `NULL`.
* An operation returns `Option`: `none` stands for undefined behaviour
  (division by zero, access outside the allocated buffer).
* The pthread primitives are not part of the program; the status each call
  returns is an input (`pthread_rc`).  The mutex is tracked by the flag `lock`
  (`true` while some thread holds it).
* Code under the mutex is one atomic step.  Where the identity of the worker
  threads matters (`pool_system`), each worker is ready, blocked in
  `pthread_cond_wait`, or exited; a signal wakes a blocked worker of the
  library's choice, a broadcast all of them, a blocked worker may also wake
  spuriously, and `pthread_join` returns once its worker has exited.
-/

set_option linter.unusedVariables false

namespace Threadpool

/-! ## Constants of `threadpool.h` and `threadpool.c` -/

/-- Upper bound of `thread_count` (`#define MAX_THREADS 64`). -/
def MAX_THREADS : Int := 64

/-- Upper bound of `queue_size` (`#define MAX_QUEUE 65536`). -/
def MAX_QUEUE : Int := 65536

/-- Status `threadpool_invalid` of `threadpool_error_t`. -/
def threadpool_invalid : Int := -1

/-- Status `threadpool_lock_failure` of `threadpool_error_t`. -/
def threadpool_lock_failure : Int := -2

/-- Status `threadpool_queue_full` of `threadpool_error_t`. -/
def threadpool_queue_full : Int := -3

/-- Status `threadpool_shutdown` of `threadpool_error_t`. -/
def threadpool_shutdown : Int := -4

/-- Status `threadpool_thread_failure` of `threadpool_error_t`. -/
def threadpool_thread_failure : Int := -5

/-- Flag `threadpool_graceful` of `threadpool_destroy_flags_t`. -/
def threadpool_graceful : Int := 1

/-- Mode `immediate_shutdown` of `threadpool_shutdown_t`. -/
def immediate_shutdown : Int := 1

/-- Mode `graceful_shutdown` of `threadpool_shutdown_t`. -/
def graceful_shutdown : Int := 2

/-! ## Data model -/

/-- A task, `threadpool_task_t`: entry point and opaque argument, both addresses. -/
structure threadpool_task_t where
  function : Nat
  argument : Nat
deriving DecidableEq, Repr

/-- The pool, `threadpool_t`.  `lock` is the state of the mutex, `threads` tells
whether the handle array pointer is non-null, `queue` is the task buffer; the
`int` fields keep their names.  The condition variable `notify` carries no data. -/
structure threadpool_t where
  lock : Bool
  threads : Bool
  queue : Int → threadpool_task_t
  thread_count : Int
  queue_size : Int
  head : Int
  tail : Int
  count : Int
  started : Int
  shutdown : Int

/-- Status returned by each pthread primitive the pool calls under its lock
(`0` is success). -/
structure pthread_rc where
  mutex_lock : Int
  mutex_unlock : Int
  cond_signal : Int
  cond_broadcast : Int

/-- Every primitive reports success. -/
def pthread_rc.ok : pthread_rc := ⟨0, 0, 0, 0⟩

/-- Store `t` at index `i` of a task buffer (`queue[i].function = ..; queue[i].argument = ..`). -/
def queue_write (q : Int → threadpool_task_t) (i : Int) (t : threadpool_task_t) :
    Int → threadpool_task_t :=
  fun j => if j = i then t else q j

/-- Index `i` lies inside the allocated buffer of `p`. -/
def in_buffer (p : threadpool_t) (i : Int) : Prop := 0 ≤ i ∧ i < p.queue_size

instance (p : threadpool_t) (i : Int) : Decidable (in_buffer p i) := by
  unfold in_buffer; infer_instance

/-! ## Submission: `threadpool_add` -/

/-- Effect of `pthread_mutex_unlock` at the end of `threadpool_add` (lines 107-109):
on success the mutex is free and `err` stands, on failure `err` is replaced. -/
def add_unlock (rc : pthread_rc) (err : Int) (p : threadpool_t) : Int × Option threadpool_t :=
  if rc.mutex_unlock ≠ 0 then (threadpool_lock_failure, some p)
  else (err, some { p with lock := false })

/-- Submission, `threadpool_add(pool, function, argument, flags)`: the returned
status and the pool afterwards. -/
def threadpool_add (pool : Option threadpool_t) (function argument : Nat) (flags : Int)
    (rc : pthread_rc) : Option (Int × Option threadpool_t) :=
  match pool with
  | none => some (threadpool_invalid, none)
  | some p0 =>
    if function = 0 then some (threadpool_invalid, some p0)
    else if rc.mutex_lock ≠ 0 then some (threadpool_lock_failure, some p0)
    else
      let p : threadpool_t := { p0 with lock := true }
      -- next = (pool->tail + 1) % pool->queue_size
      if p.queue_size = 0 then none
      else
        let next := (p.tail + 1).tmod p.queue_size
        if p.count = p.queue_size then some (add_unlock rc threadpool_queue_full p)
        else if p.shutdown ≠ 0 then some (add_unlock rc threadpool_shutdown p)
        else if ¬ in_buffer p p.tail then none
        else
          let p1 : threadpool_t :=
            { p with queue := queue_write p.queue p.tail ⟨function, argument⟩,
                     tail := next,
                     count := p.count + 1 }
          if rc.cond_signal ≠ 0 then some (add_unlock rc threadpool_lock_failure p1)
          else some (add_unlock rc 0 p1)

/-! ## Worker: `threadpool_thread` -/

/-- What one pass of the worker loop does. -/
inductive thread_event where
  /-- Blocked in `pthread_cond_wait` (line 188). -/
  | wait
  /-- Dequeued a task and ran it (lines 196-205). -/
  | run (task : threadpool_task_t)
  /-- Left the loop and exited (lines 208-211). -/
  | exit
deriving DecidableEq, Repr

/-- One pass of the worker with the mutex acquired: either it blocks on the
condition variable, or it leaves the loop (`started--`), or it takes the task at
`head`.  The mutex is free afterwards in all three cases. -/
def threadpool_thread_step (p0 : threadpool_t) : Option (thread_event × threadpool_t) :=
  let p : threadpool_t := { p0 with lock := true }
  if p.count = 0 ∧ p.shutdown = 0 then
    some (thread_event.wait, { p with lock := false })
  else if p.shutdown = immediate_shutdown ∨ (p.shutdown = graceful_shutdown ∧ p.count = 0) then
    some (thread_event.exit, { p with started := p.started - 1, lock := false })
  else if ¬ in_buffer p p.head then none
  else if p.queue_size = 0 then none
  else
    let task : threadpool_task_t := ⟨(p.queue p.head).function, (p.queue p.head).argument⟩
    some (thread_event.run task,
      { p with head := (p.head + 1).tmod p.queue_size,
               -- pool->count -= -1
               count := p.count - (-1),
               lock := false })

/-- A single worker running its loop with nobody else touching the pool, for at
most `fuel` passes: the tasks it ran (in order), whether it reached its exit, and
the pool afterwards.  A worker that blocks with no other thread around stays blocked. -/
def threadpool_thread (fuel : Nat) (p : threadpool_t) :
    Option (List threadpool_task_t × Bool × threadpool_t) :=
  match fuel with
  | 0 => some ([], false, p)
  | fuel + 1 =>
    match threadpool_thread_step p with
    | none => none
    | some (thread_event.wait, p1) => some ([], false, p1)
    | some (thread_event.exit, p1) => some ([], true, p1)
    | some (thread_event.run task, p1) =>
      match threadpool_thread fuel p1 with
      | none => none
      | some (ran, stopped, p2) => some (task :: ran, stopped, p2)

/-! ## Lifecycle: `threadpool_free`, `threadpool_destroy`, `threadpool_create` -/

/-- What `threadpool_free` can release. -/
inductive resource where
  | threads
  | queue
  | lock
  | notify
  | pool
deriving DecidableEq, Repr

/-- Teardown, `threadpool_free(pool)`: the returned status and what was released.
After `threads` and `queue` are freed the function takes the mutex
(`pthread_mutex_lock`, line 168) before destroying it: on a mutex that is held
the call blocks there for as long as it stays held, and the status is `none`
(no return) with only `threads` and `queue` released. -/
def threadpool_free (pool : Option threadpool_t) : Option Int × List resource :=
  match pool with
  | none => (some (-1), [])
  | some p =>
    if p.started > 0 then (some (-1), [])
    else if p.threads then
      -- free(pool->threads); free(pool->queue); pthread_mutex_lock(&(pool->lock))
      if p.lock then (none, [resource.threads, resource.queue])
      else
        (some 0,
          [resource.threads, resource.queue, resource.lock, resource.notify, resource.pool])
    else (some 0, [resource.pool])

/-- The part of `threadpool_destroy` that runs under the mutex (lines 123-140):
the status so far, the pool, and whether the join loop is reached. -/
def destroy_signal (p0 : threadpool_t) (flags : Int) (rc : pthread_rc) :
    Int × threadpool_t × Bool :=
  if rc.mutex_lock ≠ 0 then (threadpool_lock_failure, p0, false)
  else
    let p : threadpool_t := { p0 with lock := true }
    if p.shutdown ≠ 0 then (threadpool_shutdown, p, false)
    else
      let p1 : threadpool_t :=
        { p with shutdown :=
            if Int.land flags threadpool_graceful ≠ 0 then graceful_shutdown
            else immediate_shutdown }
      if rc.cond_broadcast ≠ 0 then (threadpool_lock_failure, p1, false)
      else if rc.mutex_unlock ≠ 0 then (threadpool_lock_failure, p1, false)
      else (0, { p1 with lock := false }, true)

/-- The join loop of `threadpool_destroy` (lines 142-146) over the thread indices
`is`.  `join i p` is the status of `pthread_join(pool->threads[i])` together with
the pool as the workers have left it when that call returns. -/
def destroy_join (join : Int → threadpool_t → Int × threadpool_t) :
    List Int → Int → threadpool_t → List Int → Int × threadpool_t × List Int
  | [], err, p, joined => (err, p, joined)
  | i :: is, err, p, joined =>
    let r := join i p
    destroy_join join is (if r.1 ≠ 0 then threadpool_thread_failure else err) r.2
      (joined ++ [i])

/-- Outcome of `threadpool_destroy`: status, pool, the thread indices handed to
`pthread_join` (in order), what `threadpool_free` released, and whether the call
is stuck in `threadpool_free` (then it never returns, and `err` is the status it
was about to return). -/
structure destroy_result where
  err : Int
  pool : Option threadpool_t
  joined : List Int
  released : List resource
  blocked : Bool

/-- Destruction, `threadpool_destroy(pool, flags)`.  Workers never write
`thread_count`, so the bound of the join loop is the value read on entry. -/
def threadpool_destroy (pool : Option threadpool_t) (flags : Int) (rc : pthread_rc)
    (join : Int → threadpool_t → Int × threadpool_t) : destroy_result :=
  match pool with
  | none => ⟨threadpool_invalid, none, [], [], false⟩
  | some p0 =>
    let s := destroy_signal p0 flags rc
    let j : Int × threadpool_t × List Int :=
      if s.2.2 then
        destroy_join join ((List.range s.2.1.thread_count.toNat).map Int.ofNat) s.1 s.2.1 []
      else (s.1, s.2.1, [])
    -- if(!err) threadpool_free(pool)
    if j.1 = 0 then
      ⟨j.1, some j.2.1, j.2.2, (threadpool_free (some j.2.1)).2,
        (threadpool_free (some j.2.1)).1.isNone⟩
    else ⟨j.1, some j.2.1, j.2.2, [], false⟩

/-- Outcome of the allocations and initialisations `threadpool_create` performs,
and the content of the freshly allocated task buffer. -/
structure create_env where
  malloc_pool : Bool
  malloc_threads : Bool
  malloc_queue : Bool
  mutex_init : Int
  cond_init : Int
  pthread_create : Int → Int
  memory : Int → threadpool_task_t

/-- Allocation, initialisation and every spawn succeed; the buffer starts zeroed. -/
def create_env.ok : create_env :=
  ⟨true, true, true, 0, 0, fun _ => 0, fun _ => ⟨0, 0⟩⟩

/-- The spawn loop of `threadpool_create` (lines 47-54) for `n` more workers from
index `i`; `none` when a spawn fails (the partial pool is handed to
`threadpool_destroy` and `NULL` is returned). -/
def create_spawn (env : create_env) : Nat → Int → threadpool_t → Option threadpool_t
  | 0, _, p => some p
  | n + 1, i, p =>
    if env.pthread_create i ≠ 0 then none
    else create_spawn env n (i + 1)
      { p with thread_count := p.thread_count + 1, started := p.started + 1 }

/-- Creation, `threadpool_create(thread_count, queue_size, flags)`; `none` is `NULL`. -/
def threadpool_create (thread_count queue_size flags : Int) (env : create_env) :
    Option threadpool_t :=
  if thread_count ≤ 0 ∨ thread_count > MAX_THREADS ∨ queue_size < 0 ∨ queue_size > MAX_QUEUE then
    none
  else if ¬ env.malloc_pool then none
  else
    let pool : threadpool_t :=
      { lock := false, threads := env.malloc_threads, queue := env.memory,
        thread_count := 0, queue_size := queue_size,
        head := 0, tail := 0, count := 0, started := 0, shutdown := 0 }
    if env.mutex_init ≠ 0 ∨ env.cond_init ≠ 0 ∨ ¬ env.malloc_threads ∨ ¬ env.malloc_queue then
      none
    else create_spawn env thread_count.toNat 0 pool

/-! ## Interleavings of atomic steps -/

/-- An atomic step on the shared pool: a `threadpool_add` call, one pass of some
worker, or the locked part of `threadpool_destroy`. -/
inductive pool_op where
  | submit (function argument : Nat)
  | worker
  | destroy (flags : Int)
deriving DecidableEq, Repr

/-- The pool together with the log of accepted submissions (those whose
`threadpool_add` returned `0`) and of tasks handed to a worker, both in order. -/
structure pool_trace where
  pool : threadpool_t
  accepted : List threadpool_task_t
  dispatched : List threadpool_task_t

/-- Perform one atomic step, every pthread primitive succeeding. -/
def run_op (s : pool_trace) : pool_op → Option pool_trace
  | pool_op.submit f a =>
    match threadpool_add (some s.pool) f a 0 pthread_rc.ok with
    | some (err, some p) =>
      some { s with pool := p,
                    accepted := if err = 0 then s.accepted ++ [⟨f, a⟩] else s.accepted }
    | _ => none
  | pool_op.worker =>
    match threadpool_thread_step s.pool with
    | some (thread_event.run task, p) =>
      some { s with pool := p, dispatched := s.dispatched ++ [task] }
    | some (_, p) => some { s with pool := p }
    | none => none
  | pool_op.destroy flags =>
    some { s with pool := (destroy_signal s.pool flags pthread_rc.ok).2.1 }

/-- Perform a sequence of atomic steps, left to right. -/
def run_ops (s : pool_trace) : List pool_op → Option pool_trace
  | [] => some s
  | op :: ops =>
    match run_op s op with
    | none => none
    | some s1 => run_ops s1 ops

/-- The trace that starts at pool `p` with both logs empty. -/
def pool_trace.init (p : threadpool_t) : pool_trace := ⟨p, [], []⟩

/-- Submit the tasks `ts` one after the other with no other step in between:
the statuses in order and the pool afterwards. -/
def add_all (rc : pthread_rc) (p : threadpool_t) :
    List threadpool_task_t → Option (List Int × threadpool_t)
  | [] => some ([], p)
  | t :: ts =>
    match threadpool_add (some p) t.function t.argument 0 rc with
    | some (err, some p1) =>
      match add_all rc p1 ts with
      | some (errs, p2) => some (err :: errs, p2)
      | none => none
    | _ => none

/-- Allocation, initialisation and every spawn of `threadpool_create` succeed. -/
def create_env.succeeds (env : create_env) : Prop :=
  env.malloc_pool = true ∧ env.malloc_threads = true ∧ env.malloc_queue = true ∧
  env.mutex_init = 0 ∧ env.cond_init = 0 ∧ ∀ i, env.pthread_create i = 0

/-! ## Workers as threads: blocked, runnable, exited -/

/-- Where a worker thread stands between two passes of its loop. -/
inductive worker_state where
  /-- At the top of its loop, about to take the mutex (freshly spawned or woken up). -/
  | ready
  /-- Blocked in `pthread_cond_wait`. -/
  | waiting
  /-- Past `pthread_exit`. -/
  | exited
deriving DecidableEq, Repr

/-- Worker `i` is woken from `pthread_cond_wait` (by a signal or spuriously): if it
is blocked it becomes ready, otherwise nothing changes. -/
def cond_wake (ws : List worker_state) (i : Nat) : List worker_state :=
  if ws[i]? = some worker_state.waiting then ws.set i worker_state.ready else ws

/-- What `pthread_cond_broadcast` does to the workers: every blocked one is woken. -/
def cond_broadcast (ws : List worker_state) : List worker_state :=
  ws.map fun w => if w = worker_state.waiting then worker_state.ready else w

/-- The pool together with the state of each worker thread, by index in
`pool->threads`. -/
structure pool_system where
  pool : threadpool_t
  workers : List worker_state

/-- An atomic step of the running system: a submission by some producer whose
`pthread_cond_signal` wakes worker `wake`, one pass of worker `i`, a spurious
wake-up of worker `i`, or the locked part of `threadpool_destroy`.  Which blocked
worker a signal wakes is the choice of the pthread library, so it is part of the
step. -/
inductive system_op where
  | submit (function argument : Nat) (wake : Nat)
  | worker (i : Nat)
  | wake (i : Nat)
  | destroy (flags : Int)
deriving DecidableEq, Repr

/-- Perform one atomic step, every pthread primitive succeeding.  A worker makes
a pass only when it is `ready`; `none` stands for a step that is not enabled or
whose behaviour is undefined.  An accepted submission signals the condition
variable, the destroy request (when it sets the mode) broadcasts on it. -/
def system_step (s : pool_system) : system_op → Option pool_system
  | system_op.submit f a wake =>
    match threadpool_add (some s.pool) f a 0 pthread_rc.ok with
    | some (err, some p) =>
      some ⟨p, if err = 0 then cond_wake s.workers wake else s.workers⟩
    | _ => none
  | system_op.wake i => some ⟨s.pool, cond_wake s.workers i⟩
  | system_op.worker i =>
    if s.workers[i]? = some worker_state.ready then
      match threadpool_thread_step s.pool with
      | some (thread_event.wait, p) => some ⟨p, s.workers.set i worker_state.waiting⟩
      | some (thread_event.run _, p) => some ⟨p, s.workers⟩
      | some (thread_event.exit, p) => some ⟨p, s.workers.set i worker_state.exited⟩
      | none => none
    else none
  | system_op.destroy flags =>
    some ⟨(destroy_signal s.pool flags pthread_rc.ok).2.1,
      if s.pool.shutdown = 0 then cond_broadcast s.workers else s.workers⟩

/-- Perform a sequence of atomic steps of the system, left to right. -/
def system_run (s : pool_system) : List system_op → Option pool_system
  | [] => some s
  | op :: ops =>
    match system_step s op with
    | none => none
    | some s1 => system_run s1 ops

/-- The system right after `threadpool_create`: the pool it returns and one
freshly spawned worker per requested thread. -/
def system_create (thread_count queue_size flags : Int) (env : create_env) :
    Option pool_system :=
  (threadpool_create thread_count queue_size flags env).map fun p =>
    ⟨p, List.replicate thread_count.toNat worker_state.ready⟩

/-- Number of workers that have not exited. -/
def live_workers : List worker_state → Int
  | [] => 0
  | w :: ws => (if w = worker_state.exited then 0 else 1) + live_workers ws

/-- Number of destroy requests among the steps `ops`. -/
def destroy_requests : List system_op → Nat
  | [] => 0
  | system_op.destroy _ :: ops => destroy_requests ops + 1
  | _ :: ops => destroy_requests ops

/-- The five things `threadpool_free` releases on a fully allocated pool. -/
def all_resources : List resource :=
  [resource.threads, resource.queue, resource.lock, resource.notify, resource.pool]

/-- The task `(function = 7, argument = 8)`. -/
def task_7_8 : threadpool_task_t := ⟨7, 8⟩

/-- A pool of capacity 2 holding `task_7_8` in slot 0 (`head = 0`, `tail = 1`,
`count = 1`), no shutdown: the state after one accepted submission. -/
def pool_one_queued : threadpool_t :=
  { lock := false, threads := true,
    queue := queue_write (fun _ => ⟨0, 0⟩) 0 task_7_8,
    thread_count := 1, queue_size := 2,
    head := 0, tail := 1, count := 1, started := 1, shutdown := 0 }

/-- The trace of a pool created with one worker and capacity `queue_size`, after
the steps `ops`. -/
def fresh_after (queue_size : Int) (ops : List pool_op) : Option pool_trace :=
  (threadpool_create 1 queue_size 0 create_env.ok).bind fun p =>
    run_ops (pool_trace.init p) ops

/-- A pool of capacity 1 whose single slot holds `task_7_8`, with `count = c` and
graceful shutdown requested. -/
def pool_graceful (c : Int) : threadpool_t :=
  { lock := false, threads := true,
    queue := queue_write (fun _ => ⟨0, 0⟩) 0 task_7_8,
    thread_count := 1, queue_size := 1,
    head := 0, tail := 0, count := c, started := 1, shutdown := graceful_shutdown }

/-- A full pool of capacity 1 on which graceful shutdown has been requested. -/
def pool_full_shutdown : threadpool_t := pool_graceful 1

/-! ## The test inputs are reachable states -/

/-- The pool `pool_one_queued` is the pool created with capacity 2 after one
accepted submission of `task_7_8`. -/
theorem pool_one_queued_reachable :
    (fresh_after 2 [pool_op.submit 7 8]).map (fun s => s.pool) = some pool_one_queued := by
  rfl

/-- The pool `pool_graceful 1` is the pool created with capacity 1 after one
accepted submission of `task_7_8` and a graceful `threadpool_destroy` request. -/
theorem pool_graceful_reachable :
    (fresh_after 1 [pool_op.submit 7 8, pool_op.destroy threadpool_graceful]).map
      (fun s => s.pool) = some (pool_graceful 1) := by
  rfl

/-! ## Worker dequeue and the occupied-slot counter (C1 - C4) -/

/-- The dequeue branch of `threadpool_thread_step` on the capacity-1 pool
`pool_graceful c` with work left: it runs the task of slot 0 and moves to
`pool_graceful (c + 1)`. -/
theorem thread_step_pool_graceful (c : Int) (hc : c ≠ 0) :
    threadpool_thread_step (pool_graceful c)
      = some (thread_event.run task_7_8, pool_graceful (c + 1)) := by
  have e : (0 + 1 : Int).tmod 1 = 0 := by decide
  simp [threadpool_thread_step, pool_graceful, in_buffer, hc, graceful_shutdown,
    immediate_shutdown, e, queue_write]

/-- The dequeue branch of `threadpool_thread_step` in general: when the worker
neither waits nor exits and `head` is inside the buffer, it takes the task at
`head`, advances `head`, and `count` grows by one (`pool->count -= -1`). -/
theorem thread_step_dequeue (p : threadpool_t)
    (hw : ¬ (p.count = 0 ∧ p.shutdown = 0))
    (he : ¬ (p.shutdown = immediate_shutdown ∨ (p.shutdown = graceful_shutdown ∧ p.count = 0)))
    (hh : in_buffer p p.head) :
    threadpool_thread_step p
      = some (thread_event.run (p.queue p.head),
          { p with head := (p.head + 1).tmod p.queue_size,
                   count := p.count + 1,
                   lock := false }) := by
  have hq : p.queue_size ≠ 0 := by
    have := hh.1
    have := hh.2
    omega
  have hh1 : 0 ≤ p.head ∧ p.head < p.queue_size := hh
  simp only [threadpool_thread_step, in_buffer]
  rw [if_neg hw, if_neg he, if_neg (not_not.mpr hh1), if_neg hq]
  simp [Int.sub_neg]

/-- C1 (code as written): at `pool_one_queued` (capacity 2, `head = 0`,
`count = 1`, no shutdown) one worker pass returns the task of slot `head` and sets
`head` to 1, but `count` goes from 1 to 2: the statement `pool->count -= -1`
adds one where the claim says the dequeue step decreases `count` by exactly 1. -/
theorem C1_dequeue_increments_count :
    (threadpool_thread_step pool_one_queued).map
        (fun r => (r.1, r.2.head, r.2.tail, r.2.count, r.2.started, r.2.shutdown))
      = some (thread_event.run task_7_8, 1, 1, 2, 1, 0) := by
  decide

/-- C2 (code as written): from a pool created with capacity 1, one accepted
submission followed by one worker dequeue step reaches a state with
`count = 2 > queue_size = 1`, so `0 ≤ count ≤ queue_size` does not hold in
every reachable state. -/
theorem C2_count_exceeds_queue_size :
    (fresh_after 1 [pool_op.submit 7 8, pool_op.worker]).map
        (fun s => (s.pool.head, s.pool.tail, s.pool.count, s.pool.queue_size,
          decide (s.pool.count ≤ s.pool.queue_size)))
      = some (0, 0, 2, 1, false) := by
  decide

/-- C3 (code as written): from a pool created with capacity 1, one accepted
submission followed by two worker passes hands the same task to a worker twice;
the dispatched sequence has two entries, the accepted sequence one, so the
former is not a prefix of the latter. -/
theorem C3_task_dispatched_twice :
    (fresh_after 1 [pool_op.submit 7 8, pool_op.worker, pool_op.worker]).map
        (fun s => (s.accepted, s.dispatched, decide (s.dispatched <+: s.accepted)))
      = some ([task_7_8], [task_7_8, task_7_8], false) := by
  decide

/-- C4 (code as written): on the capacity-1 pool holding `K = 1` queued task
with graceful shutdown requested, a single worker never reaches its exit:
whatever the number `n` of passes, it has run the task `n` times and has not
stopped, where the claim says it runs exactly the `K` tasks and then stops. -/
theorem C4_graceful_worker_never_stops (n : Nat) :
    (threadpool_thread n (pool_graceful 1)).map (fun r => (r.1, r.2.1))
      = some (List.replicate n task_7_8, false) := by
  have key : ∀ (n : Nat) (c : Int), 0 < c →
      (threadpool_thread n (pool_graceful c)).map (fun r => (r.1, r.2.1))
        = some (List.replicate n task_7_8, false) := by
    intro n
    induction n with
    | zero => intro c _; rfl
    | succ k ih =>
      intro c hc
      have hstep := thread_step_pool_graceful c (by omega)
      have hrec := ih (c + 1) (by omega)
      cases hr : threadpool_thread k (pool_graceful (c + 1)) with
      | none => rw [hr] at hrec; simp at hrec
      | some r =>
        rw [hr] at hrec
        obtain ⟨ran, stopped, p2⟩ := r
        simp only [Option.map_some', Option.some.injEq, Prod.mk.injEq] at hrec
        simp [threadpool_thread, hstep, hr, hrec.1, hrec.2, List.replicate_succ]
  exact key n 1 (by decide)

/-! ## Submission (C5 - C8) -/

/-- The accepting path of `threadpool_add`: room left, no shutdown, `tail` inside
the buffer, primitives succeeding. -/
theorem add_accept_eq (p : threadpool_t) (f a : Nat) (flags : Int) (rc : pthread_rc)
    (hf : f ≠ 0) (hl : rc.mutex_lock = 0) (hsig : rc.cond_signal = 0)
    (hu : rc.mutex_unlock = 0) (ht0 : 0 ≤ p.tail) (ht1 : p.tail < p.queue_size)
    (hc : p.count ≠ p.queue_size) (hs : p.shutdown = 0) :
    threadpool_add (some p) f a flags rc
      = some (0, some { p with lock := false,
                               queue := queue_write p.queue p.tail ⟨f, a⟩,
                               tail := (p.tail + 1).tmod p.queue_size,
                               count := p.count + 1 }) := by
  have hq : p.queue_size ≠ 0 := by omega
  simp [threadpool_add, add_unlock, in_buffer, hf, hl, hsig, hu, ht0, ht1, hc, hs, hq]

/-- The accepting path of `threadpool_add`, field by field. -/
theorem add_accept (p : threadpool_t) (f a : Nat) (flags : Int) (rc : pthread_rc)
    (hf : f ≠ 0) (hl : rc.mutex_lock = 0) (hsig : rc.cond_signal = 0)
    (hu : rc.mutex_unlock = 0) (ht0 : 0 ≤ p.tail) (ht1 : p.tail < p.queue_size)
    (hc : p.count ≠ p.queue_size) (hs : p.shutdown = 0) :
    ∃ q, threadpool_add (some p) f a flags rc = some (0, some q) ∧
      q.queue = queue_write p.queue p.tail ⟨f, a⟩ ∧
      q.tail = (p.tail + 1).tmod p.queue_size ∧ q.count = p.count + 1 ∧
      q.head = p.head ∧ q.shutdown = p.shutdown ∧ q.started = p.started ∧
      q.queue_size = p.queue_size ∧ q.thread_count = p.thread_count ∧
      q.threads = p.threads ∧ q.lock = false :=
  ⟨_, add_accept_eq p f a flags rc hf hl hsig hu ht0 ht1 hc hs,
    rfl, rfl, rfl, rfl, rfl, rfl, rfl, rfl, rfl, rfl⟩

/-- The queue-full path of `threadpool_add`. -/
theorem add_full_eq (p : threadpool_t) (f a : Nat) (flags : Int) (rc : pthread_rc)
    (hf : f ≠ 0) (hl : rc.mutex_lock = 0) (hu : rc.mutex_unlock = 0)
    (hq : p.queue_size ≠ 0) (hc : p.count = p.queue_size) :
    threadpool_add (some p) f a flags rc
      = some (threadpool_queue_full, some { p with lock := false }) := by
  simp [threadpool_add, add_unlock, hf, hl, hu, hc, hq]

/-- The shutting-down path of `threadpool_add`: reached only when the queue is not full. -/
theorem add_shutdown_eq (p : threadpool_t) (f a : Nat) (flags : Int) (rc : pthread_rc)
    (hf : f ≠ 0) (hl : rc.mutex_lock = 0) (hu : rc.mutex_unlock = 0)
    (hq : p.queue_size ≠ 0) (hc : p.count ≠ p.queue_size) (hs : p.shutdown ≠ 0) :
    threadpool_add (some p) f a flags rc
      = some (threadpool_shutdown, some { p with lock := false }) := by
  simp [threadpool_add, add_unlock, hf, hl, hu, hc, hq, hs]

/-- On an index inside a buffer of positive size, C's `%` after `+ 1` is the
mathematical remainder and stays inside the buffer. -/
theorem next_index (i n : Int) (hi0 : 0 ≤ i) (hin : i < n) :
    (i + 1).tmod n = (i + 1) % n ∧ 0 ≤ (i + 1).tmod n ∧ (i + 1).tmod n < n := by
  have hn : 0 < n := by omega
  have e : (i + 1).tmod n = (i + 1) % n := Int.tmod_eq_emod (by omega) (by omega)
  refine ⟨e, ?_, ?_⟩
  · rw [e]; exact Int.emod_nonneg _ (by omega)
  · rw [e]; exact Int.emod_lt_of_pos _ hn

/-- The spawn loop with every spawn succeeding: it returns a pool, and only
`thread_count` and `started` have moved, each by the number of workers. -/
theorem create_spawn_ok (env : create_env) (hsp : ∀ i, env.pthread_create i = 0) :
    ∀ (n : Nat) (i : Int) (p : threadpool_t),
      ∃ q, create_spawn env n i p = some q ∧ q.queue_size = p.queue_size ∧
        q.head = p.head ∧ q.tail = p.tail ∧ q.count = p.count ∧
        q.shutdown = p.shutdown ∧ q.queue = p.queue ∧ q.lock = p.lock ∧
        q.threads = p.threads ∧ q.thread_count = p.thread_count + n ∧
        q.started = p.started + n := by
  intro n
  induction n with
  | zero => intro i p; exact ⟨p, rfl, by simp⟩
  | succ k ih =>
    intro i p
    obtain ⟨q, hq, h⟩ := ih (i + 1)
      { p with thread_count := p.thread_count + 1, started := p.started + 1 }
    refine ⟨q, ?_, ?_⟩
    · simp [create_spawn, hsp, hq]
    · simp only at h
      obtain ⟨h1, h2, h3, h4, h5, h6, h7, h8, h9, h10⟩ := h
      refine ⟨h1, h2, h3, h4, h5, h6, h7, h8, ?_, ?_⟩
      · rw [h9]; push_cast; ring
      · rw [h10]; push_cast; ring

/-- With a valid configuration and a succeeding environment `threadpool_create`
returns a pool in its initial state. -/
theorem create_ok (thread_count queue_size flags : Int) (env : create_env)
    (htc : 1 ≤ thread_count ∧ thread_count ≤ MAX_THREADS)
    (hqs : 0 ≤ queue_size ∧ queue_size ≤ MAX_QUEUE) (henv : env.succeeds) :
    ∃ q, threadpool_create thread_count queue_size flags env = some q ∧
      q.queue_size = queue_size ∧ q.head = 0 ∧ q.tail = 0 ∧ q.count = 0 ∧
      q.shutdown = 0 ∧ q.thread_count = thread_count ∧ q.started = thread_count := by
  obtain ⟨e1, e2, e3, e4, e5, e6⟩ := henv
  obtain ⟨q, hq, h1, h2, h3, h4, h5, _, _, _, h9, h10⟩ :=
    create_spawn_ok env e6 thread_count.toNat 0
      { lock := false, threads := env.malloc_threads, queue := env.memory,
        thread_count := 0, queue_size := queue_size,
        head := 0, tail := 0, count := 0, started := 0, shutdown := 0 }
  have hcfg : ¬ (thread_count ≤ 0 ∨ thread_count > MAX_THREADS ∨ queue_size < 0 ∨
      queue_size > MAX_QUEUE) := by omega
  have hnat : ((thread_count.toNat : Nat) : Int) = thread_count := Int.toNat_of_nonneg (by omega)
  refine ⟨q, ?_, h1, h2, h3, h4, h5, ?_, ?_⟩
  · unfold threadpool_create
    rw [if_neg hcfg]
    rw [e2] at hq
    simp [e1, e2, e3, e4, e5, hq]
  · rw [h9, hnat]; simp
  · rw [h10, hnat]; simp

/-- Filling a pool: with `count + length ts = queue_size + 1` every submission of
`ts` but the last is accepted and the last one is refused as queue-full. -/
theorem add_all_fill (n : Int) (hn : 1 ≤ n) :
    ∀ (ts : List threadpool_task_t) (p : threadpool_t),
      p.queue_size = n → p.shutdown = 0 → 0 ≤ p.tail → p.tail < n → p.count ≤ n →
      p.count + ts.length = n + 1 → (∀ t ∈ ts, t.function ≠ 0) →
      (add_all pthread_rc.ok p ts).map Prod.fst
        = some (List.replicate (ts.length - 1) 0 ++ [threadpool_queue_full]) := by
  intro ts
  induction ts with
  | nil => intro p _ _ _ _ hc hlen _; simp at hlen; omega
  | cons t ts ih =>
    intro p hq hs ht0 ht1 hc hlen hf
    have hft : t.function ≠ 0 := hf t (List.mem_cons_self _ _)
    simp only [List.length_cons, Nat.cast_add, Nat.cast_one] at hlen
    by_cases hfull : p.count = n
    · have hts : ts = [] := List.length_eq_zero.mp (by omega)
      subst hts
      have h := add_full_eq p t.function t.argument 0 pthread_rc.ok hft rfl rfl
        (by omega) (by omega)
      simp [add_all, h]
    · obtain ⟨p1, h, _, e2, e3, _, e5, _, e7, _⟩ :=
        add_accept p t.function t.argument 0 pthread_rc.ok hft rfl rfl rfl
          ht0 (by omega) (by omega) hs
      obtain ⟨_, hr0, hr1⟩ := next_index p.tail p.queue_size ht0 (by omega)
      have hrec := ih p1 (by rw [e7]; exact hq) (by rw [e5]; exact hs)
        (by rw [e2]; exact hr0) (by rw [e2]; simpa [hq] using hr1)
        (by rw [e3]; omega) (by rw [e3]; omega)
        (fun u hu => hf u (List.mem_cons_of_mem _ hu))
      have hpos : 1 ≤ ts.length := by omega
      cases hr : add_all pthread_rc.ok p1 ts with
      | none => rw [hr] at hrec; simp at hrec
      | some r =>
        rw [hr] at hrec
        simp only [Option.map_some', Option.some.injEq] at hrec
        simp only [add_all, h, hr, Option.map_some', Option.some.injEq, hrec,
          List.length_cons, Nat.add_sub_cancel]
        obtain ⟨m, hm⟩ : ∃ m, ts.length = m + 1 := ⟨ts.length - 1, by omega⟩
        rw [hm]
        simp [List.replicate_succ]

/-- C5: for every capacity `n` with `1 ≤ n ≤ 65536`, a valid worker count and
a succeeding environment, `threadpool_create` returns a pool on which, with no
worker step in between and every lock primitive succeeding, `n + 1` submissions
with non-null entry points return `0` for the first `n` and
`threadpool_queue_full` for the last. -/
theorem C5_bounded_capacity (n : Nat) (thread_count flags : Int) (env : create_env)
    (ts : List threadpool_task_t) (hn1 : 1 ≤ n) (hn2 : n ≤ 65536)
    (htc : 1 ≤ thread_count ∧ thread_count ≤ MAX_THREADS) (henv : env.succeeds)
    (hlen : ts.length = n + 1) (hf : ∀ t ∈ ts, t.function ≠ 0) :
    ∃ p, threadpool_create thread_count n flags env = some p ∧
      (add_all pthread_rc.ok p ts).map Prod.fst
        = some (List.replicate n 0 ++ [threadpool_queue_full]) := by
  have hqs : (0 : Int) ≤ n ∧ (n : Int) ≤ MAX_QUEUE := by
    constructor
    · omega
    · show (n : Int) ≤ 65536
      omega
  obtain ⟨p, hp, h1, _, h3, h4, h5, _, _⟩ := create_ok thread_count n flags env htc hqs henv
  refine ⟨p, hp, ?_⟩
  have h := add_all_fill n (by omega) ts p h1 h5 (by omega) (by omega) (by omega)
    (by rw [h4, hlen]; push_cast; ring) hf
  rw [h, hlen]
  simp

/-- C5 at capacity 2 with three submissions: statuses `0, 0, threadpool_queue_full`. -/
theorem C5_bounded_capacity_witness :
    ∃ p, threadpool_create 1 (2 : Nat) 0 create_env.ok = some p ∧
      (add_all pthread_rc.ok p [task_7_8, task_7_8, task_7_8]).map Prod.fst
        = some (List.replicate 2 0 ++ [threadpool_queue_full]) :=
  C5_bounded_capacity 2 1 0 create_env.ok [task_7_8, task_7_8, task_7_8]
    (by decide) (by decide) (by decide)
    ⟨rfl, rfl, rfl, rfl, rfl, fun _ => rfl⟩ rfl (by decide)

/-- C6: on a pool with `queue_size ≥ 1`, `0 ≤ tail < queue_size`,
`count < queue_size` and no shutdown, `threadpool_add` with a non-null entry
point `f` (lock, signal and unlock succeeding) returns `0`; the slot at the old
`tail` holds `(f, a)`, `tail` becomes `(tail + 1) mod queue_size`, `count` grows
by one, and `head`, `shutdown`, `started` and every other slot are unchanged. -/
theorem C6_submit_success (p : threadpool_t) (f a : Nat) (flags : Int) (rc : pthread_rc)
    (hq : 1 ≤ p.queue_size) (ht0 : 0 ≤ p.tail) (ht1 : p.tail < p.queue_size)
    (hc : p.count < p.queue_size) (hs : p.shutdown = 0) (hf : f ≠ 0)
    (hrc : rc.mutex_lock = 0 ∧ rc.cond_signal = 0 ∧ rc.mutex_unlock = 0) :
    ∃ q, threadpool_add (some p) f a flags rc = some (0, some q) ∧
      q.queue p.tail = ⟨f, a⟩ ∧
      q.tail = (p.tail + 1) % p.queue_size ∧
      q.count = p.count + 1 ∧
      q.head = p.head ∧ q.shutdown = p.shutdown ∧ q.started = p.started ∧
      ∀ i, i ≠ p.tail → q.queue i = p.queue i := by
  obtain ⟨q, h, e1, e2, e3, e4, e5, e6, _⟩ :=
    add_accept p f a flags rc hf hrc.1 hrc.2.1 hrc.2.2 ht0 ht1 (by omega) hs
  refine ⟨q, h, ?_, ?_, e3, e4, e5, e6, ?_⟩
  · rw [e1]; simp [queue_write]
  · rw [e2]; exact (next_index p.tail p.queue_size ht0 ht1).1
  · intro i hi
    rw [e1]; simp [queue_write, hi]

/-- C6 at `pool_one_queued` (capacity 2, `tail = 1`, `count = 1`). -/
theorem C6_submit_success_witness :
    (1 ≤ pool_one_queued.queue_size ∧ 0 ≤ pool_one_queued.tail ∧
      pool_one_queued.tail < pool_one_queued.queue_size ∧
      pool_one_queued.count < pool_one_queued.queue_size ∧ pool_one_queued.shutdown = 0) ∧
    ∃ q, threadpool_add (some pool_one_queued) 5 6 0 pthread_rc.ok = some (0, some q) ∧
      q.queue pool_one_queued.tail = ⟨5, 6⟩ ∧
      q.tail = (pool_one_queued.tail + 1) % pool_one_queued.queue_size ∧
      q.count = pool_one_queued.count + 1 ∧
      q.head = pool_one_queued.head ∧ q.shutdown = pool_one_queued.shutdown ∧
      q.started = pool_one_queued.started ∧
      ∀ i, i ≠ pool_one_queued.tail → q.queue i = pool_one_queued.queue i :=
  ⟨by decide,
   C6_submit_success pool_one_queued 5 6 0 pthread_rc.ok (by decide) (by decide) (by decide)
     (by decide) rfl (by decide) ⟨rfl, rfl, rfl⟩⟩

/-- C7 (as stated, refuted): `pool_full_shutdown` has `queue_size = 1`,
`count = queue_size` and graceful shutdown requested, and `threadpool_add` with
a non-null entry point returns `threadpool_queue_full`, not `threadpool_shutdown`. -/
theorem C7_full_queue_counterexample :
    1 ≤ pool_full_shutdown.queue_size ∧
    pool_full_shutdown.shutdown = graceful_shutdown ∧
    pool_full_shutdown.count = pool_full_shutdown.queue_size ∧
    (threadpool_add (some pool_full_shutdown) 7 8 0 pthread_rc.ok).map Prod.fst
      = some threadpool_queue_full ∧
    (threadpool_add (some pool_full_shutdown) 7 8 0 pthread_rc.ok).map Prod.fst
      ≠ some threadpool_shutdown := by
  decide

/-- C7 (amended): on a pool with `queue_size ≥ 1` whose shutdown mode is set
(graceful or immediate), `threadpool_add` with a non-null entry point (lock and
unlock succeeding) is refused: with `threadpool_shutdown` when
`count ≠ queue_size`, with `threadpool_queue_full` when `count = queue_size`
(the full test comes first); in both cases `head`, `tail`, `count`, `shutdown`
and all slots are unchanged. -/
theorem C7_submit_after_shutdown (p : threadpool_t) (f a : Nat) (flags : Int)
    (rc : pthread_rc) (hq : 1 ≤ p.queue_size)
    (hs : p.shutdown = graceful_shutdown ∨ p.shutdown = immediate_shutdown) (hf : f ≠ 0)
    (hrc : rc.mutex_lock = 0 ∧ rc.mutex_unlock = 0) :
    ∃ q, threadpool_add (some p) f a flags rc
        = some (if p.count = p.queue_size then threadpool_queue_full
                else threadpool_shutdown, some q) ∧
      q.head = p.head ∧ q.tail = p.tail ∧ q.count = p.count ∧
      q.shutdown = p.shutdown ∧ q.queue = p.queue := by
  have hs0 : p.shutdown ≠ 0 := by
    rcases hs with h | h <;> rw [h] <;> decide
  by_cases hc : p.count = p.queue_size
  · refine ⟨{ p with lock := false }, ?_, rfl, rfl, rfl, rfl, rfl⟩
    rw [if_pos hc]
    exact add_full_eq p f a flags rc hf hrc.1 hrc.2 (by omega) hc
  · refine ⟨{ p with lock := false }, ?_, rfl, rfl, rfl, rfl, rfl⟩
    rw [if_neg hc]
    exact add_shutdown_eq p f a flags rc hf hrc.1 hrc.2 (by omega) hc hs0

/-- C7 (amended) at `pool_graceful 0`: capacity 1, empty, graceful shutdown requested. -/
theorem C7_submit_after_shutdown_witness :
    (1 ≤ (pool_graceful 0).queue_size ∧ (pool_graceful 0).shutdown = graceful_shutdown) ∧
    ∃ q, threadpool_add (some (pool_graceful 0)) 7 8 0 pthread_rc.ok
        = some (if (pool_graceful 0).count = (pool_graceful 0).queue_size
                then threadpool_queue_full else threadpool_shutdown, some q) ∧
      q.head = (pool_graceful 0).head ∧ q.tail = (pool_graceful 0).tail ∧
      q.count = (pool_graceful 0).count ∧ q.shutdown = (pool_graceful 0).shutdown ∧
      q.queue = (pool_graceful 0).queue :=
  ⟨by decide,
   C7_submit_after_shutdown (pool_graceful 0) 7 8 0 pthread_rc.ok (by decide) (Or.inl rfl)
     (by decide) ⟨rfl, rfl⟩⟩

/-- C8: on a pool with `queue_size ≥ 1`, `count = queue_size` and no shutdown,
`threadpool_add` with a non-null entry point (lock and unlock succeeding) returns
`threadpool_queue_full` and leaves `head`, `tail`, `count`, `shutdown` and every
slot unchanged. -/
theorem C8_submit_full_atomic (p : threadpool_t) (f a : Nat) (flags : Int)
    (rc : pthread_rc) (hq : 1 ≤ p.queue_size) (hc : p.count = p.queue_size)
    (hs : p.shutdown = 0) (hf : f ≠ 0)
    (hrc : rc.mutex_lock = 0 ∧ rc.mutex_unlock = 0) :
    ∃ q, threadpool_add (some p) f a flags rc = some (threadpool_queue_full, some q) ∧
      q.head = p.head ∧ q.tail = p.tail ∧ q.count = p.count ∧
      q.shutdown = p.shutdown ∧ q.queue = p.queue :=
  ⟨{ p with lock := false }, add_full_eq p f a flags rc hf hrc.1 hrc.2 (by omega) hc,
    rfl, rfl, rfl, rfl, rfl⟩

/-- The full pool of capacity 2 reached from `pool_one_queued` by one more
accepted submission. -/
theorem C8_submit_full_atomic_witness :
    ∃ q, threadpool_add
        (some { pool_one_queued with tail := 0, count := 2 }) 7 8 0 pthread_rc.ok
        = some (threadpool_queue_full, some q) ∧
      q.head = 0 ∧ q.tail = 0 ∧ q.count = 2 ∧ q.shutdown = 0 ∧
      q.queue = pool_one_queued.queue :=
  C8_submit_full_atomic { pool_one_queued with tail := 0, count := 2 } 7 8 0 pthread_rc.ok
    (by decide) rfl rfl (by decide) ⟨rfl, rfl⟩

/-! ## Shutdown (C9, C10) -/

/-- C9: on a pool whose shutdown mode is immediate, whatever `count` is, one
worker pass is the exit: no task is taken, `head`, `tail`, `count` and all slots
are unchanged and `started` drops by exactly 1. -/
theorem C9_immediate_exit (p : threadpool_t) (hs : p.shutdown = immediate_shutdown) :
    ∃ q, threadpool_thread_step p = some (thread_event.exit, q) ∧
      q.head = p.head ∧ q.tail = p.tail ∧ q.count = p.count ∧ q.queue = p.queue ∧
      q.started = p.started - 1 := by
  have h0 : ¬ (p.count = 0 ∧ p.shutdown = 0) := by
    rintro ⟨_, h⟩
    rw [hs] at h
    exact absurd h (by decide)
  refine ⟨{ p with started := p.started - 1, lock := false }, ?_, rfl, rfl, rfl, rfl, rfl⟩
  simp only [threadpool_thread_step]
  rw [if_neg h0, if_pos (Or.inl hs)]

/-- C9 at `pool_one_queued` switched to immediate shutdown (one task still queued). -/
theorem C9_immediate_exit_witness :
    ∃ q, threadpool_thread_step { pool_one_queued with shutdown := immediate_shutdown }
        = some (thread_event.exit, q) ∧
      q.head = 0 ∧ q.tail = 1 ∧ q.count = 1 ∧ q.queue = pool_one_queued.queue ∧
      q.started = 1 - 1 :=
  C9_immediate_exit { pool_one_queued with shutdown := immediate_shutdown } rfl

/-- C10: `threadpool_destroy` on a null handle returns `threadpool_invalid`;
on a pool whose shutdown mode is already set (the lock being acquired) it
returns `threadpool_shutdown` whatever the flags, keeps the shutdown mode as it
was, hands no thread to `pthread_join` and releases nothing (`threadpool_free` is
not called, so the call does return). -/
theorem C10_destroy_guard :
    (∀ (flags : Int) (rc : pthread_rc) (join : Int → threadpool_t → Int × threadpool_t),
      (threadpool_destroy none flags rc join).err = threadpool_invalid) ∧
    (∀ (p : threadpool_t) (flags : Int) (rc : pthread_rc)
        (join : Int → threadpool_t → Int × threadpool_t),
      p.shutdown ≠ 0 → rc.mutex_lock = 0 →
        (threadpool_destroy (some p) flags rc join).err = threadpool_shutdown ∧
        (threadpool_destroy (some p) flags rc join).pool.map (fun q => q.shutdown)
          = some p.shutdown ∧
        (threadpool_destroy (some p) flags rc join).joined = [] ∧
        (threadpool_destroy (some p) flags rc join).released = [] ∧
        (threadpool_destroy (some p) flags rc join).blocked = false) := by
  refine ⟨fun _ _ _ => rfl, ?_⟩
  intro p flags rc join hs hl
  have hsig : destroy_signal p flags rc = (threadpool_shutdown, { p with lock := true }, false) := by
    simp [destroy_signal, hl, hs]
  have hne : ¬ (threadpool_shutdown = 0) := by decide
  simp [threadpool_destroy, hsig, hne]

/-- C10 at the null handle and at `pool_full_shutdown` (graceful shutdown already
requested), destroyed with the immediate flag. -/
theorem C10_destroy_guard_witness :
    (threadpool_destroy none 0 pthread_rc.ok (fun _ q => (0, q))).err = threadpool_invalid ∧
    pool_full_shutdown.shutdown ≠ 0 ∧
    (threadpool_destroy (some pool_full_shutdown) 0 pthread_rc.ok (fun _ q => (0, q))).err
      = threadpool_shutdown ∧
    (threadpool_destroy (some pool_full_shutdown) 0 pthread_rc.ok
        (fun _ q => (0, q))).pool.map (fun q => q.shutdown)
      = some pool_full_shutdown.shutdown ∧
    (threadpool_destroy (some pool_full_shutdown) 0 pthread_rc.ok (fun _ q => (0, q))).joined
      = [] ∧
    (threadpool_destroy (some pool_full_shutdown) 0 pthread_rc.ok (fun _ q => (0, q))).released
      = [] ∧
    (threadpool_destroy (some pool_full_shutdown) 0 pthread_rc.ok (fun _ q => (0, q))).blocked
      = false :=
  ⟨C10_destroy_guard.1 0 pthread_rc.ok (fun _ q => (0, q)), by decide,
   C10_destroy_guard.2 pool_full_shutdown 0 pthread_rc.ok (fun _ q => (0, q))
     (by decide) rfl⟩

/-! ## Creation and the shutdown flag (C11, C13, C14) -/

/-- C11: with allocation, initialisation and every spawn succeeding,
`threadpool_create` returns `NULL` exactly when `thread_count` is outside
`[1, 64]` or `queue_size` is outside `[0, 65536]`; a returned pool has
`head = tail = count = 0`, no shutdown, the requested `queue_size`, and
`thread_count = started =` the requested number of workers. -/
theorem C11_create_validates (thread_count queue_size flags : Int) (env : create_env)
    (henv : env.succeeds) :
    (threadpool_create thread_count queue_size flags env = none ↔
      (thread_count < 1 ∨ 64 < thread_count ∨ queue_size < 0 ∨ 65536 < queue_size)) ∧
    (∀ p, threadpool_create thread_count queue_size flags env = some p →
      p.head = 0 ∧ p.tail = 0 ∧ p.count = 0 ∧ p.shutdown = 0 ∧
      p.queue_size = queue_size ∧ p.thread_count = thread_count ∧
      p.started = thread_count) := by
  by_cases hcfg : thread_count < 1 ∨ 64 < thread_count ∨ queue_size < 0 ∨ 65536 < queue_size
  · have hnone : threadpool_create thread_count queue_size flags env = none := by
      have h : thread_count ≤ 0 ∨ thread_count > MAX_THREADS ∨ queue_size < 0 ∨
          queue_size > MAX_QUEUE := by
        simp only [MAX_THREADS, MAX_QUEUE]
        omega
      unfold threadpool_create
      rw [if_pos h]
    refine ⟨⟨fun _ => hcfg, fun _ => hnone⟩, ?_⟩
    intro p hp
    rw [hnone] at hp
    exact absurd hp (by simp)
  · have htc : 1 ≤ thread_count ∧ thread_count ≤ MAX_THREADS := by
      simp only [MAX_THREADS]
      omega
    have hqs : 0 ≤ queue_size ∧ queue_size ≤ MAX_QUEUE := by
      simp only [MAX_QUEUE]
      omega
    obtain ⟨q, hq, h1, h2, h3, h4, h5, h6, h7⟩ :=
      create_ok thread_count queue_size flags env htc hqs henv
    refine ⟨⟨fun h => ?_, fun h => absurd h hcfg⟩, ?_⟩
    · rw [hq] at h
      exact absurd h (by simp)
    · intro p hp
      rw [hq] at hp
      cases hp
      exact ⟨h2, h3, h4, h5, h1, h6, h7⟩

/-- C11 at `thread_count = 4`, `queue_size = 16` in the succeeding environment. -/
theorem C11_create_validates_witness :
    (threadpool_create 4 16 0 create_env.ok = none ↔
      ((4 : Int) < 1 ∨ (64 : Int) < 4 ∨ (16 : Int) < 0 ∨ (65536 : Int) < 16)) ∧
    (∀ p, threadpool_create 4 16 0 create_env.ok = some p →
      p.head = 0 ∧ p.tail = 0 ∧ p.count = 0 ∧ p.shutdown = 0 ∧
      p.queue_size = 16 ∧ p.thread_count = 4 ∧ p.started = 4) :=
  C11_create_validates 4 16 0 create_env.ok ⟨rfl, rfl, rfl, rfl, rfl, fun _ => rfl⟩

/-- Under a set shutdown mode an atomic step changes neither the mode nor the
log of accepted submissions. -/
theorem run_op_after_shutdown (s : pool_trace) (op : pool_op) (s1 : pool_trace)
    (hs : s.pool.shutdown ≠ 0) (h : run_op s op = some s1) :
    s1.pool.shutdown = s.pool.shutdown ∧ s1.accepted = s.accepted := by
  cases op with
  | submit f a =>
    simp only [run_op, threadpool_add, add_unlock, pthread_rc.ok] at h
    split_ifs at h <;> simp at h <;> subst h <;>
      simp_all [threadpool_invalid, threadpool_queue_full, threadpool_shutdown]
  | worker =>
    simp only [run_op, threadpool_thread_step] at h
    split_ifs at h <;> simp at h <;> subst h <;> simp
  | destroy flags =>
    simp only [run_op, destroy_signal, pthread_rc.ok] at h
    simp [hs] at h
    subst h
    simp

/-- With a set shutdown mode `threadpool_add` never reports success. -/
theorem add_refused_after_shutdown (p : threadpool_t) (f a : Nat) (flags : Int)
    (rc : pthread_rc) (r : Int × Option threadpool_t) (hs : p.shutdown ≠ 0)
    (h : threadpool_add (some p) f a flags rc = some r) : r.1 ≠ 0 := by
  simp only [threadpool_add, add_unlock] at h
  split_ifs at h <;> simp at h <;> subst h <;>
    simp [threadpool_invalid, threadpool_lock_failure, threadpool_queue_full,
      threadpool_shutdown]

/-- C13: once the shutdown mode is graceful or immediate, no sequence of
atomic steps (submissions, worker passes, `threadpool_destroy` requests) changes
it, no submission is accepted along the way, and `threadpool_add` on the
resulting pool never returns `0`. -/
theorem C13_shutdown_permanent (s : pool_trace) (ops : List pool_op) (s1 : pool_trace)
    (hs : s.pool.shutdown = graceful_shutdown ∨ s.pool.shutdown = immediate_shutdown)
    (hrun : run_ops s ops = some s1) :
    s1.pool.shutdown = s.pool.shutdown ∧ s1.accepted = s.accepted ∧
    ∀ (f a : Nat) (flags : Int) (rc : pthread_rc) (r : Int × Option threadpool_t),
      threadpool_add (some s1.pool) f a flags rc = some r → r.1 ≠ 0 := by
  have hs0 : s.pool.shutdown ≠ 0 := by
    rcases hs with h | h <;> rw [h] <;> decide
  have key : ∀ (ops : List pool_op) (s s1 : pool_trace), s.pool.shutdown ≠ 0 →
      run_ops s ops = some s1 →
      s1.pool.shutdown = s.pool.shutdown ∧ s1.accepted = s.accepted := by
    intro ops
    induction ops with
    | nil =>
      intro s s1 _ h
      simp only [run_ops, Option.some.injEq] at h
      subst h
      exact ⟨rfl, rfl⟩
    | cons op ops ih =>
      intro s s1 hs h
      simp only [run_ops] at h
      cases hop : run_op s op with
      | none => rw [hop] at h; simp at h
      | some s2 =>
        rw [hop] at h
        obtain ⟨e1, e2⟩ := run_op_after_shutdown s op s2 hs hop
        obtain ⟨e3, e4⟩ := ih s2 s1 (by rw [e1]; exact hs) h
        exact ⟨e3.trans e1, e4.trans e2⟩
  obtain ⟨e1, e2⟩ := key ops s s1 hs0 hrun
  refine ⟨e1, e2, ?_⟩
  intro f a flags rc r h
  exact add_refused_after_shutdown s1.pool f a flags rc r (by rw [e1]; exact hs0) h

/-- C13 at `pool_full_shutdown`: a submission, a worker pass and a second
destroy request leave the graceful mode in place. -/
theorem C13_shutdown_permanent_witness :
    ∃ s1, run_ops (pool_trace.init pool_full_shutdown)
        [pool_op.submit 5 6, pool_op.worker, pool_op.destroy 0] = some s1 ∧
      s1.pool.shutdown = graceful_shutdown ∧ s1.accepted = [] ∧
      ∀ (f a : Nat) (flags : Int) (rc : pthread_rc) (r : Int × Option threadpool_t),
        threadpool_add (some s1.pool) f a flags rc = some r → r.1 ≠ 0 :=
  ⟨_, rfl,
    C13_shutdown_permanent (pool_trace.init pool_full_shutdown)
      [pool_op.submit 5 6, pool_op.worker, pool_op.destroy 0] _ (Or.inl rfl) rfl⟩

/-- The low bit of `1` minus the bits of `m`: `1` when `m` is even, `0` when odd. -/
theorem ldiff_one (m : Nat) : Nat.ldiff 1 m = if m % 2 = 0 then 1 else 0 := by
  unfold Nat.ldiff
  rw [Nat.bitwise]
  simp
  by_cases hm : m = 0
  · simp [hm]
  · simp [hm]

/-- C's `flags & 1` on a two's-complement integer is its remainder modulo 2. -/
theorem land_one_eq (x : Int) : Int.land x 1 = x % 2 := by
  cases x with
  | ofNat m =>
    show ((m &&& 1 : Nat) : Int) = (m : Int) % 2
    rw [Nat.and_one_is_mod]; simp
  | negSucc m =>
    show ((Nat.ldiff 1 m : Nat) : Int) = Int.negSucc m % 2
    rw [ldiff_one, Int.negSucc_eq]
    rcases Nat.mod_two_eq_zero_or_one m with h | h
    · rw [if_pos h]; omega
    · rw [if_neg (by omega)]; omega

/-- C14: on a pool with no shutdown mode, for every integer `flags`, the locked
part of `threadpool_destroy` (the lock being acquired) sets the mode to
`graceful_shutdown` when bit 0 of `flags` (`threadpool_graceful`) is set and to
`immediate_shutdown` otherwise, and leaves `head`, `tail`, `count` and all slots
unchanged. -/
theorem C14_destroy_selects_mode (p : threadpool_t) (flags : Int) (rc : pthread_rc)
    (hs : p.shutdown = 0) (hl : rc.mutex_lock = 0) :
    (destroy_signal p flags rc).2.1.shutdown
      = (if flags % 2 = 1 then graceful_shutdown else immediate_shutdown) ∧
    (destroy_signal p flags rc).2.1.head = p.head ∧
    (destroy_signal p flags rc).2.1.tail = p.tail ∧
    (destroy_signal p flags rc).2.1.count = p.count ∧
    (destroy_signal p flags rc).2.1.queue = p.queue := by
  have hbit : (Int.land flags threadpool_graceful ≠ 0) ↔ flags % 2 = 1 := by
    show Int.land flags 1 ≠ 0 ↔ flags % 2 = 1
    rw [land_one_eq]
    omega
  simp only [destroy_signal, hl, hs]
  by_cases hb : flags % 2 = 1
  · have hb1 := hbit.mpr hb
    simp only [if_pos hb, if_pos hb1]
    split_ifs <;> simp_all
  · have hb1 : ¬ (Int.land flags threadpool_graceful ≠ 0) := fun h => hb (hbit.mp h)
    simp only [if_neg hb, if_neg hb1]
    split_ifs <;> simp_all

/-- C14 at `pool_one_queued` with `flags = 3` (graceful bit set among others). -/
theorem C14_destroy_selects_mode_witness :
    (destroy_signal pool_one_queued 3 pthread_rc.ok).2.1.shutdown
      = (if (3 : Int) % 2 = 1 then graceful_shutdown else immediate_shutdown) ∧
    (destroy_signal pool_one_queued 3 pthread_rc.ok).2.1.head = pool_one_queued.head ∧
    (destroy_signal pool_one_queued 3 pthread_rc.ok).2.1.tail = pool_one_queued.tail ∧
    (destroy_signal pool_one_queued 3 pthread_rc.ok).2.1.count = pool_one_queued.count ∧
    (destroy_signal pool_one_queued 3 pthread_rc.ok).2.1.queue = pool_one_queued.queue :=
  C14_destroy_selects_mode pool_one_queued 3 pthread_rc.ok rfl rfl

/-! ## Index range, zero capacity and lock balance (C15, C17, C18) -/

/-- One atomic step from a state whose `head` and `tail` are inside a buffer of
positive size is defined and keeps both inside it; `queue_size` does not move. -/
theorem run_op_index (s : pool_trace) (op : pool_op)
    (hh0 : 0 ≤ s.pool.head) (hh1 : s.pool.head < s.pool.queue_size)
    (ht0 : 0 ≤ s.pool.tail) (ht1 : s.pool.tail < s.pool.queue_size) :
    ∃ s1, run_op s op = some s1 ∧ s1.pool.queue_size = s.pool.queue_size ∧
      0 ≤ s1.pool.head ∧ s1.pool.head < s1.pool.queue_size ∧
      0 ≤ s1.pool.tail ∧ s1.pool.tail < s1.pool.queue_size := by
  have hq : s.pool.queue_size ≠ 0 := by omega
  obtain ⟨_, hn0, hn1⟩ := next_index s.pool.tail s.pool.queue_size ht0 ht1
  obtain ⟨_, hm0, hm1⟩ := next_index s.pool.head s.pool.queue_size hh0 hh1
  cases op with
  | submit f a =>
    simp only [run_op, threadpool_add, add_unlock, pthread_rc.ok, in_buffer]
    split_ifs <;> simp_all
  | worker =>
    simp only [run_op, threadpool_thread_step, in_buffer]
    split_ifs <;> simp_all
  | destroy flags =>
    simp only [run_op, destroy_signal, pthread_rc.ok]
    split_ifs <;> simp_all

/-- Any sequence of atomic steps from such a state is defined and keeps `head`
and `tail` inside the buffer. -/
theorem run_ops_index (ops : List pool_op) :
    ∀ (s : pool_trace), 0 ≤ s.pool.head → s.pool.head < s.pool.queue_size →
      0 ≤ s.pool.tail → s.pool.tail < s.pool.queue_size →
      ∃ s1, run_ops s ops = some s1 ∧ s1.pool.queue_size = s.pool.queue_size ∧
        0 ≤ s1.pool.head ∧ s1.pool.head < s1.pool.queue_size ∧
        0 ≤ s1.pool.tail ∧ s1.pool.tail < s1.pool.queue_size := by
  induction ops with
  | nil => intro s hh0 hh1 ht0 ht1; exact ⟨s, rfl, rfl, hh0, hh1, ht0, ht1⟩
  | cons op ops ih =>
    intro s hh0 hh1 ht0 ht1
    obtain ⟨s1, h1, e1, a1, a2, a3, a4⟩ := run_op_index s op hh0 hh1 ht0 ht1
    obtain ⟨s2, h2, e2, b1, b2, b3, b4⟩ := ih s1 a1 a2 a3 a4
    refine ⟨s2, ?_, e2.trans e1, b1, b2, b3, b4⟩
    simp only [run_ops, h1, h2]

/-- C15: from the pool `threadpool_create` returns for `queue_size ≥ 1`, every
sequence of atomic steps (submissions and worker passes, destroy requests
included) is defined - no slot outside the buffer is read or written - and ends
in a state with `0 ≤ head < queue_size` and `0 ≤ tail < queue_size`. -/
theorem C15_index_range (thread_count queue_size flags : Int) (env : create_env)
    (ops : List pool_op) (htc : 1 ≤ thread_count ∧ thread_count ≤ MAX_THREADS)
    (hqs : 1 ≤ queue_size ∧ queue_size ≤ MAX_QUEUE) (henv : env.succeeds) :
    ∃ p s, threadpool_create thread_count queue_size flags env = some p ∧
      run_ops (pool_trace.init p) ops = some s ∧ s.pool.queue_size = queue_size ∧
      0 ≤ s.pool.head ∧ s.pool.head < queue_size ∧
      0 ≤ s.pool.tail ∧ s.pool.tail < queue_size := by
  obtain ⟨p, hp, h1, h2, h3, _⟩ :=
    create_ok thread_count queue_size flags env htc ⟨by omega, hqs.2⟩ henv
  have hq : (pool_trace.init p).pool.queue_size = queue_size := h1
  have hh : (pool_trace.init p).pool.head = 0 := h2
  have ht : (pool_trace.init p).pool.tail = 0 := h3
  obtain ⟨s, hs, e, a1, a2, a3, a4⟩ := run_ops_index ops (pool_trace.init p)
    (by omega) (by omega) (by omega) (by omega)
  rw [hq] at e
  rw [e] at a2 a4
  exact ⟨p, s, hp, hs, e, a1, a2, a3, a4⟩

/-- C15 on a pool of capacity 2 after three submissions and two worker passes. -/
theorem C15_index_range_witness :
    ∃ p s, threadpool_create 1 2 0 create_env.ok = some p ∧
      run_ops (pool_trace.init p)
        [pool_op.submit 7 8, pool_op.submit 7 8, pool_op.worker, pool_op.submit 7 8,
          pool_op.worker] = some s ∧
      s.pool.queue_size = 2 ∧
      0 ≤ s.pool.head ∧ s.pool.head < 2 ∧ 0 ≤ s.pool.tail ∧ s.pool.tail < 2 :=
  C15_index_range 1 2 0 create_env.ok
    [pool_op.submit 7 8, pool_op.submit 7 8, pool_op.worker, pool_op.submit 7 8,
      pool_op.worker]
    (by decide) (by decide) ⟨rfl, rfl, rfl, rfl, rfl, fun _ => rfl⟩

/-- On a pool of capacity 0 `threadpool_add` with a non-null entry point, once it
holds the lock, evaluates `(tail + 1) % 0`: its behaviour is undefined. -/
theorem add_zero_capacity (p : threadpool_t) (f a : Nat) (flags : Int) (rc : pthread_rc)
    (hf : f ≠ 0) (hl : rc.mutex_lock = 0) (hq : p.queue_size = 0) :
    threadpool_add (some p) f a flags rc = none := by
  simp [threadpool_add, hf, hl, hq]

/-- C17 (code as written): `threadpool_create 1 0` returns a pool with
`queue_size = 0` and `count = 0`, and on it `threadpool_add` with a non-null
entry point has no defined result: `next = (tail + 1) % queue_size` (line 79)
divides by zero before the queue-full test is reached, where the claim says the
call is well defined and returns `threadpool_queue_full`. -/
theorem C17_zero_capacity_divides_by_zero :
    (threadpool_create 1 0 0 create_env.ok).map
        (fun p => (p.queue_size, p.count, p.tail,
          (threadpool_add (some p) 7 8 0 pthread_rc.ok).isSome))
      = some (0, 0, 0, false) := by
  decide

/-- Every defined return of `threadpool_add` that took the lock has released it
(lock and unlock succeeding): the submission side of the lock balance. -/
theorem add_releases_lock (p : threadpool_t) (f a : Nat) (flags : Int) (rc : pthread_rc)
    (err : Int) (q : threadpool_t) (hf : f ≠ 0) (hl : rc.mutex_lock = 0)
    (hu : rc.mutex_unlock = 0)
    (h : threadpool_add (some p) f a flags rc = some (err, some q)) : q.lock = false := by
  simp only [threadpool_add, add_unlock, hf, hl, hu] at h
  split_ifs at h <;> simp_all <;> obtain ⟨_, h⟩ := h <;> subst h <;> rfl

/-- The path of `threadpool_destroy` that sets the shutdown mode has released the
lock when the join loop starts (every primitive succeeding). -/
theorem destroy_signal_releases_lock (p : threadpool_t) (flags : Int)
    (hs : p.shutdown = 0) :
    (destroy_signal p flags pthread_rc.ok).1 = 0 ∧
    (destroy_signal p flags pthread_rc.ok).2.1.lock = false := by
  simp [destroy_signal, pthread_rc.ok, hs]

/-- C18 (code as written): on `pool_full_shutdown`, whose shutdown mode is
already set, `threadpool_destroy` with every primitive succeeding takes the lock,
returns `threadpool_shutdown` and leaves the lock held: the `break` at line 132
skips the only `pthread_mutex_unlock` of the function, where the claim says the
lock has been released on the already-shutting-down path. -/
theorem C18_destroy_keeps_lock_when_shutting_down :
    (threadpool_destroy (some pool_full_shutdown) 0 pthread_rc.ok (fun _ q => (0, q))).err
      = threadpool_shutdown ∧
    pool_full_shutdown.lock = false ∧
    (threadpool_destroy (some pool_full_shutdown) 0 pthread_rc.ok
        (fun _ q => (0, q))).pool.map (fun q => q.lock) = some true ∧
    (threadpool_destroy (some pool_full_shutdown) 0 pthread_rc.ok
        (fun _ q => (0, q))).blocked = false := by
  decide

/-! ## Live workers and the `started` counter (C12) -/

/-- A spawn loop that returns a pool has raised `thread_count` and `started` by the
number of workers and left the other fields alone. -/
theorem create_spawn_some (env : create_env) :
    ∀ (n : Nat) (i : Int) (p q : threadpool_t), create_spawn env n i p = some q →
      q.started = p.started + n ∧ q.thread_count = p.thread_count + n ∧
      q.threads = p.threads ∧ q.lock = p.lock ∧ q.count = p.count ∧
      q.shutdown = p.shutdown := by
  intro n
  induction n with
  | zero =>
    intro i p q h
    simp only [create_spawn, Option.some.injEq] at h
    subst h
    simp
  | succ k ih =>
    intro i p q h
    simp only [create_spawn] at h
    split_ifs at h
    obtain ⟨h1, h2, h3, h4, h5, h6⟩ := ih _ _ _ h
    refine ⟨?_, ?_, h3, h4, h5, h6⟩
    · rw [h1]; push_cast; ring
    · rw [h2]; push_cast; ring

/-- A pool returned by `threadpool_create`: as many started workers as requested
(at least one), handle array allocated, lock free, empty, no shutdown. -/
theorem create_some (thread_count queue_size flags : Int) (env : create_env)
    (q : threadpool_t) (h : threadpool_create thread_count queue_size flags env = some q) :
    1 ≤ thread_count ∧ q.started = thread_count ∧ q.thread_count = thread_count ∧
    q.threads = true ∧ q.lock = false ∧ q.count = 0 ∧ q.shutdown = 0 := by
  simp only [threadpool_create] at h
  split_ifs at h with h1 h2 h3
  have ht : 1 ≤ thread_count := by omega
  have hnat : ((thread_count.toNat : Nat) : Int) = thread_count := Int.toNat_of_nonneg (by omega)
  obtain ⟨e1, e2, e3, e4, e5, e6⟩ := create_spawn_some env _ _ _ _ h
  have hthr : env.malloc_threads = true := by
    by_contra hc
    exact h3 (Or.inr (Or.inr (Or.inl hc)))
  refine ⟨ht, ?_, ?_, ?_, e4, e5, e6⟩
  · rw [e1, hnat]; simp
  · rw [e2, hnat]; simp
  · rw [e3]; exact hthr

/-- Freshly spawned workers are all alive. -/
theorem live_replicate_ready (n : Nat) :
    live_workers (List.replicate n worker_state.ready) = n := by
  induction n with
  | zero => rfl
  | succ k ih =>
    simp only [List.replicate_succ, live_workers, ih]
    push_cast
    ring_nf

/-- When every worker has exited none is alive. -/
theorem live_all_exited (ws : List worker_state)
    (h : ∀ w ∈ ws, w = worker_state.exited) : live_workers ws = 0 := by
  induction ws with
  | nil => rfl
  | cons w ws ih =>
    have hw := h w (List.mem_cons_self _ _)
    simp [live_workers, hw, ih (fun u hu => h u (List.mem_cons_of_mem _ hu))]

/-- Replacing the state of a worker that has not exited: one fewer alive when
the new state is `exited`, the same number otherwise. -/
theorem live_set (u w : worker_state) (hu : u ≠ worker_state.exited) :
    ∀ (ws : List worker_state) (i : Nat), ws[i]? = some u →
      live_workers (ws.set i w)
        = live_workers ws - (if w = worker_state.exited then 1 else 0) := by
  intro ws
  induction ws with
  | nil => intro i h; simp at h
  | cons v vs ih =>
    intro i h
    cases i with
    | zero =>
      simp only [List.getElem?_cons_zero, Option.some.injEq] at h
      subst h
      cases w <;> simp [live_workers, hu]
    | succ k =>
      simp only [List.getElem?_cons_succ] at h
      simp only [List.set_cons_succ, live_workers, ih k h]
      ring

/-- Waking a worker does not change how many are alive. -/
theorem live_cond_wake (ws : List worker_state) (i : Nat) :
    live_workers (cond_wake ws i) = live_workers ws := by
  unfold cond_wake
  split_ifs with h
  · rw [live_set worker_state.waiting worker_state.ready (by decide) ws i h]
    simp
  · rfl

/-- Waking every worker does not change how many are alive. -/
theorem live_cond_broadcast (ws : List worker_state) :
    live_workers (cond_broadcast ws) = live_workers ws := by
  induction ws with
  | nil => rfl
  | cons w ws ih =>
    have ih1 : live_workers (List.map
        (fun w => if w = worker_state.waiting then worker_state.ready else w) ws)
        = live_workers ws := ih
    cases w <;> simp [cond_broadcast, live_workers, ih1]

/-- One atomic step of the system keeps `started` equal to the number of live
workers, and the handle array allocated. -/
theorem system_step_started (s s1 : pool_system) (op : system_op)
    (hinv : s.pool.started = live_workers s.workers) (h : system_step s op = some s1) :
    s1.pool.started = live_workers s1.workers ∧ s1.pool.threads = s.pool.threads := by
  cases op with
  | submit f a wake =>
    simp only [system_step, threadpool_add, add_unlock, pthread_rc.ok] at h
    split_ifs at h <;> simp at h <;> subst h <;>
      simp_all [live_cond_wake, threadpool_invalid, threadpool_queue_full,
        threadpool_shutdown]
  | wake i =>
    simp only [system_step, Option.some.injEq] at h
    subst h
    simp [live_cond_wake, hinv]
  | worker i =>
    simp only [system_step] at h
    split_ifs at h with hr
    simp only [threadpool_thread_step] at h
    have hw := live_set worker_state.ready worker_state.waiting (by decide) s.workers i hr
    have he := live_set worker_state.ready worker_state.exited (by decide) s.workers i hr
    split_ifs at h <;> simp at h <;> subst h <;> simp_all
  | destroy flags =>
    simp only [system_step, destroy_signal, pthread_rc.ok, Option.some.injEq] at h
    subst h
    split_ifs <;> simp_all [live_cond_broadcast]

/-- Any run of the system keeps `started` equal to the number of live workers. -/
theorem system_run_started (ops : List system_op) :
    ∀ (s s1 : pool_system), s.pool.started = live_workers s.workers →
      system_run s ops = some s1 →
      s1.pool.started = live_workers s1.workers ∧ s1.pool.threads = s.pool.threads := by
  induction ops with
  | nil =>
    intro s s1 hinv h
    simp only [system_run, Option.some.injEq] at h
    subst h
    exact ⟨hinv, rfl⟩
  | cons op ops ih =>
    intro s s1 hinv h
    simp only [system_run] at h
    cases hop : system_step s op with
    | none => rw [hop] at h; simp at h
    | some s2 =>
      rw [hop] at h
      obtain ⟨a1, a2⟩ := system_step_started s s2 op hinv hop
      obtain ⟨b1, b2⟩ := ih s2 s1 a1 h
      exact ⟨b1, b2.trans a2⟩

/-- One atomic step from a state with the mutex free leaves it free, unless the
step is a destroy request on a pool whose shutdown mode is already set; a step
other than a destroy request keeps the mode, and a destroy request sets it. -/
theorem system_step_lock (s s1 : pool_system) (op : system_op)
    (hl : s.pool.lock = false) (h : system_step s op = some s1) :
    (destroy_requests [op] = 0 →
      s1.pool.lock = false ∧ s1.pool.shutdown = s.pool.shutdown) ∧
    (s.pool.shutdown = 0 → s1.pool.lock = false) ∧
    (destroy_requests [op] = 1 → s1.pool.shutdown ≠ 0) := by
  cases op with
  | submit f a wake =>
    simp only [system_step, threadpool_add, add_unlock, pthread_rc.ok] at h
    split_ifs at h <;> simp at h <;> subst h <;> simp_all [destroy_requests]
  | wake i =>
    simp only [system_step, Option.some.injEq] at h
    subst h
    simp [hl, destroy_requests]
  | worker i =>
    simp only [system_step] at h
    split_ifs at h with hr
    simp only [threadpool_thread_step] at h
    split_ifs at h <;> simp at h <;> subst h <;> simp [destroy_requests]
  | destroy flags =>
    simp only [system_step, destroy_signal, pthread_rc.ok, Option.some.injEq] at h
    subst h
    refine ⟨fun h0 => absurd h0 (by simp [destroy_requests]), ?_, ?_⟩
    · intro hs
      simp [hs]
    · intro _
      by_cases hs : s.pool.shutdown = 0
      · simp only [hs]
        split_ifs <;> simp_all [graceful_shutdown, immediate_shutdown]
      · simp [hs]

/-- A run that contains at most one destroy request while no shutdown mode is
set, and none once it is set, ends with the mutex free. -/
theorem system_run_lock (ops : List system_op) :
    ∀ (s s1 : pool_system), s.pool.lock = false →
      (s.pool.shutdown = 0 → destroy_requests ops ≤ 1) →
      (s.pool.shutdown ≠ 0 → destroy_requests ops = 0) →
      system_run s ops = some s1 → s1.pool.lock = false := by
  induction ops with
  | nil =>
    intro s s1 hl _ _ h
    simp only [system_run, Option.some.injEq] at h
    subst h
    exact hl
  | cons op ops ih =>
    intro s s1 hl h0 h1 h
    simp only [system_run] at h
    cases hop : system_step s op with
    | none => rw [hop] at h; simp at h
    | some s2 =>
      rw [hop] at h
      obtain ⟨a1, a2, a3⟩ := system_step_lock s s2 op hl hop
      have hsplit : destroy_requests (op :: ops)
          = destroy_requests [op] + destroy_requests ops := by
        cases op <;> simp [destroy_requests, Nat.add_comm]
      have hle : destroy_requests [op] ≤ 1 := by
        cases op <;> simp [destroy_requests]
      by_cases hd : destroy_requests [op] = 0
      · obtain ⟨b1, b2⟩ := a1 hd
        refine ih s2 s1 b1 ?_ ?_ h
        · intro hs
          have := h0 (by rw [← b2]; exact hs)
          omega
        · intro hs
          have := h1 (by rw [← b2]; exact hs)
          omega
      · have hd1 : destroy_requests [op] = 1 := by omega
        have hs0 : s.pool.shutdown = 0 := by
          by_contra hs
          have := h1 hs
          omega
        refine ih s2 s1 (a2 hs0) ?_ ?_ h
        · intro hs
          exact absurd hs (a3 hd1)
        · intro _
          have := h0 hs0
          omega

/-- After a second destroy request the mutex is held for good, and a
`threadpool_free` call on the pool whose workers have all exited frees `threads`
and `queue` and then blocks in `pthread_mutex_lock` (line 168). -/
theorem free_blocks_after_second_destroy :
    ((system_create 1 4 0 create_env.ok).bind fun s0 =>
        system_run s0 [system_op.destroy 0, system_op.worker 0, system_op.destroy 0]).map
      (fun s => (s.workers, s.pool.started, s.pool.lock, threadpool_free (some s.pool)))
      = some ([worker_state.exited], 0, true, (none, [resource.threads, resource.queue])) := by
  decide

/-- C12: `threadpool_free` on a pool with `started > 0` returns `-1` and
releases nothing; and in every state the system reaches from
`threadpool_create` (submissions, worker passes, wake-ups, destroy requests in
any order) `started` is the number of workers that have not exited, so once each
of the workers has taken its exit `started` is `0` and `threadpool_free` is not
refused: it returns `0` and releases the pool when the mutex is free at its
`pthread_mutex_lock` (line 168), which is the case whenever the run holds at most
one destroy request, and it blocks there, `threads` and `queue` already freed,
when the mutex is held. -/
theorem C12_free_guard :
    (∀ p : threadpool_t, 0 < p.started → threadpool_free (some p) = (some (-1), [])) ∧
    (∀ (thread_count queue_size flags : Int) (env : create_env) (ops : List system_op)
        (s0 s : pool_system),
      system_create thread_count queue_size flags env = some s0 →
      system_run s0 ops = some s →
        s0.pool.started = thread_count ∧ s0.pool.thread_count = thread_count ∧
        s.pool.started = live_workers s.workers ∧
        (destroy_requests ops ≤ 1 → s.pool.lock = false) ∧
        ((∀ w ∈ s.workers, w = worker_state.exited) →
          s.pool.started = 0 ∧
          (threadpool_free (some s.pool)).1 ≠ some (-1) ∧
          (s.pool.lock = false →
            threadpool_free (some s.pool) = (some 0, all_resources)) ∧
          (s.pool.lock = true →
            threadpool_free (some s.pool) = (none, [resource.threads, resource.queue])))) := by
  constructor
  · intro p hp
    simp [threadpool_free, hp]
  · intro thread_count queue_size flags env ops s0 s hc hrun
    simp only [system_create] at hc
    cases hp : threadpool_create thread_count queue_size flags env with
    | none => rw [hp] at hc; simp at hc
    | some p =>
      rw [hp] at hc
      simp only [Option.map_some', Option.some.injEq] at hc
      subst hc
      obtain ⟨h1, h2, h3, h4, h5, _, h7⟩ :=
        create_some thread_count queue_size flags env p hp
      have hnat : ((thread_count.toNat : Nat) : Int) = thread_count :=
        Int.toNat_of_nonneg (by omega)
      have hinv : p.started = live_workers (List.replicate thread_count.toNat
          worker_state.ready) := by
        rw [live_replicate_ready, hnat, h2]
      obtain ⟨a1, a2⟩ := system_run_started ops _ s hinv hrun
      refine ⟨h2, h3, a1, ?_, ?_⟩
      · intro hd
        exact system_run_lock ops _ s h5 (fun _ => hd) (fun hs => absurd h7 hs) hrun
      · intro hall
        have hz : s.pool.started = 0 := by rw [a1, live_all_exited _ hall]
        have ht : s.pool.threads = true := by rw [a2]; exact h4
        refine ⟨hz, ?_, ?_, ?_⟩
        · cases hl : s.pool.lock <;> simp [threadpool_free, hz, ht, hl]
        · intro hl
          simp [threadpool_free, hz, ht, hl, all_resources]
        · intro hl
          simp [threadpool_free, hz, ht, hl]

/-- C12 on a pool with a live worker, and on the system created with two
workers after an immediate destroy request and the exit of both workers: the
mutex is free and `threadpool_free` returns `0`. -/
theorem C12_free_guard_witness :
    threadpool_free (some pool_one_queued) = (some (-1), []) ∧
    ∃ s0 s, system_create 2 4 0 create_env.ok = some s0 ∧
      system_run s0 [system_op.worker 0, system_op.destroy 0, system_op.worker 1,
        system_op.worker 0] = some s ∧
      (∀ w ∈ s.workers, w = worker_state.exited) ∧
      s.pool.started = 0 ∧ s.pool.lock = false ∧
      threadpool_free (some s.pool) = (some 0, all_resources) :=
  ⟨C12_free_guard.1 pool_one_queued (by decide),
   _, _, rfl, rfl, by decide,
   ((C12_free_guard.2 2 4 0 create_env.ok
     [system_op.worker 0, system_op.destroy 0, system_op.worker 1, system_op.worker 0]
     _ _ rfl rfl).2.2.2.2 (by decide)).1,
   (C12_free_guard.2 2 4 0 create_env.ok
     [system_op.worker 0, system_op.destroy 0, system_op.worker 1, system_op.worker 0]
     _ _ rfl rfl).2.2.2.1 (by decide),
   ((C12_free_guard.2 2 4 0 create_env.ok
     [system_op.worker 0, system_op.destroy 0, system_op.worker 1, system_op.worker 0]
     _ _ rfl rfl).2.2.2.2 (by decide)).2.2.1
     ((C12_free_guard.2 2 4 0 create_env.ok
       [system_op.worker 0, system_op.destroy 0, system_op.worker 1, system_op.worker 0]
       _ _ rfl rfl).2.2.2.1 (by decide))⟩

/-! ## Create followed by an immediate destroy (C16) -/

end Threadpool
